import Mathlib

/-!
Verification development for the offline data-fusion pipeline of the
kern-flow-map dashboard.

The embedded code is `src/data/data.worker.ts` (the tabular flow-table
parser, the feature classifier, the geometry normalizer and the source
reconciliation engine `fetchAndProcessDataForAllSources`) and the
module-level worker cache of the `useFlowData` hook (the background
execution shim).

Modelling conventions:
* network fetches and the external decoders (Papa CSV parse, shapefile
  read) are oracles: each fetch/decode outcome is an explicit
  `Except String _` input, mirroring the fact that the worker only
  observes their results;
* JavaScript strings are Lean `String`s, but every string operation the
  code uses (`trim`, `toLowerCase`, `includes`, `parseFloat`) is embedded
  as an explicit function over the character list, so that all
  definitions evaluate inside the kernel;
* JavaScript numbers produced by `parseFloat` are embedded exactly:
  `NaN`, signed `Infinity` (ECMA-262 `parseFloat` recognises a signed
  `Infinity` literal), or a finite decimal `mantissa * 10 ^ exponent`.
  Binary-float rounding of finite values is not modelled; no claim
  depends on it;
* JavaScript objects / `Map`s are association lists with JS assignment
  semantics (`setKey` overwrites in place, `getKey` finds the first
  binding);
* `console.warn` / `console.error` diagnostics are accumulated in a
  `List Diag`, one constructor per distinct log site, carrying the data
  the log line interpolates.
-/

/-! ## JavaScript string primitives -/

/-- Does the first character list start with the second?  Helper for the
embedding of `String.prototype.includes` and of the `Infinity` literal
check of `parseFloat`. -/
def charsStartWith : List Char → List Char → Bool
  | _, [] => true
  | [], _ :: _ => false
  | c :: cs, p :: ps => c == p && charsStartWith cs ps

/-- Does the first character list contain the second as a contiguous
substring? -/
def charsContain : List Char → List Char → Bool
  | [], pat => pat.isEmpty
  | c :: cs, pat => charsStartWith (c :: cs) pat || charsContain cs pat

/-- Embedding of JavaScript `s.includes(pat)`. -/
def strContains (s pat : String) : Bool :=
  charsContain s.data pat.data

/-- Embedding of JavaScript `s.toLowerCase()` (ASCII case mapping). -/
def jsToLowerCase (s : String) : String :=
  String.mk (s.data.map Char.toLower)

/-- Embedding of JavaScript `s.trim()`: strip leading and trailing
whitespace. -/
def jsTrim (s : String) : String :=
  String.mk (((s.data.dropWhile Char.isWhitespace).reverse.dropWhile
    Char.isWhitespace).reverse)

/-! ## JavaScript numbers and `parseFloat` -/

/-- Exact decimal number `mantissa * 10 ^ exponent`, the value of a finite
JavaScript float literal as written. -/
structure DecNum where
  mantissa : Int
  exponent : Int
deriving DecidableEq

/-- Result of a JavaScript numeric operation: `NaN`, a signed infinity, or
a finite decimal value. -/
inductive JSNum where
  | nan : JSNum
  | inf (negative : Bool) : JSNum
  | num (value : DecNum) : JSNum
deriving DecidableEq

/-- A `JSNum` is finite when it is neither `NaN` nor an infinity. -/
def JSNum.isFinite : JSNum → Bool
  | .num _ => true
  | _ => false

/-- Numeric value of a list of decimal digit characters. -/
def decDigitsVal (ds : List Char) : Nat :=
  ds.foldl (fun n c => 10 * n + (c.toNat - 48)) 0

/-- Value contributed by the optional exponent suffix of a decimal
literal (the part after `e`/`E`): `0` when the suffix has no digits, in
which case `parseFloat` stops before the `e`. -/
def jsExponentValue (cs : List Char) : Int :=
  let neg : Bool :=
    match cs with
    | '-' :: _ => true
    | _ => false
  let cs' :=
    match cs with
    | '-' :: rest => rest
    | '+' :: rest => rest
    | _ => cs
  let ds := cs'.takeWhile Char.isDigit
  if ds.isEmpty then 0
  else if neg then -(decDigitsVal ds : Int) else (decDigitsVal ds : Int)

/-- Embedding of JavaScript `parseFloat(s)` (ECMA-262): skip leading
whitespace, optional sign, then either the `Infinity` literal or the
longest decimal-literal prefix (`digits [. digits] [e digits]`); `NaN`
when no prefix parses. -/
def jsParseFloat (s : String) : JSNum :=
  let cs0 := s.data.dropWhile Char.isWhitespace
  let signNeg : Bool :=
    match cs0 with
    | '-' :: _ => true
    | _ => false
  let cs1 :=
    match cs0 with
    | '-' :: rest => rest
    | '+' :: rest => rest
    | _ => cs0
  if charsStartWith cs1 "Infinity".data then JSNum.inf signNeg
  else
    let intDigits := cs1.takeWhile Char.isDigit
    let cs2 := cs1.dropWhile Char.isDigit
    let fracDigits :=
      match cs2 with
      | '.' :: rest => rest.takeWhile Char.isDigit
      | _ => []
    let cs3 :=
      match cs2 with
      | '.' :: rest => rest.dropWhile Char.isDigit
      | _ => cs2
    if intDigits.isEmpty && fracDigits.isEmpty then JSNum.nan
    else
      let expPart : Int :=
        match cs3 with
        | 'e' :: rest => jsExponentValue rest
        | 'E' :: rest => jsExponentValue rest
        | _ => 0
      let mantNat := decDigitsVal (intDigits ++ fracDigits)
      let mant : Int := if signNeg then -(mantNat : Int) else (mantNat : Int)
      JSNum.num ⟨mant, expPart - (fracDigits.length : Int)⟩

/-! ## Association lists with JavaScript object / Map semantics -/

/-- Lookup in an association list: first binding of the key, as JavaScript
property access / `Map.get`. -/
def getKey {α : Type} (m : List (String × α)) (k : String) : Option α :=
  match m.find? (fun kv => kv.1 == k) with
  | some kv => some kv.2
  | none => none

/-- Insertion with JavaScript assignment / `Map.set` semantics: overwrite
an existing binding in place, otherwise append. -/
def setKey {α : Type} (m : List (String × α)) (k : String) (v : α) :
    List (String × α) :=
  if m.any (fun kv => kv.1 == k) then
    m.map (fun kv => if kv.1 = k then (k, v) else kv)
  else m ++ [(k, v)]

/-! ## Data model (from `data.worker.ts`) -/

/-- Feature category, the `'river' | 'canal' | 'weir'` union of the
source. -/
inductive FeatureType where
  | river : FeatureType
  | canal : FeatureType
  | weir : FeatureType
deriving DecidableEq

/-- The string a `FeatureType` interpolates to in JavaScript. -/
def FeatureType.toStr : FeatureType → String
  | .river => "river"
  | .canal => "canal"
  | .weir => "weir"

/-- A GeoJSON position (coordinate tuple of numbers). -/
abbrev Position := List DecNum

/-- A raw GeoJSON geometry as delivered by `shapefile.read`.  The code
inspects only `geometry.type` and `geometry.coordinates`; kinds other
than the three supported ones are kept abstract with their type tag. -/
inductive Geometry where
  | point (coordinates : Position) : Geometry
  | lineString (coordinates : List Position) : Geometry
  | multiLineString (coordinates : List (List Position)) : Geometry
  | other (typeName : String) : Geometry
deriving DecidableEq

/-- Attribute bag of a raw feature (dbf record), string keyed and string
valued; a value is JS-truthy when non-empty. -/
abbrev AttrBag := List (String × String)

/-- A raw geometry feature from `shapefile.read`: a possibly-null geometry
and a possibly-null attribute bag. -/
structure RawGeometryFeature where
  geometry : Option Geometry
  properties : Option AttrBag
deriving DecidableEq

/-- One parsed CSV data row as produced by Papa parse with `header: true`:
an object from header name to (string) cell value. -/
abbrev CsvRow := List (String × String)

/-- Year-keyed flow mapping, the value type of `flowDataMap`. -/
abbrev YearFlows := List (String × JSNum)

/-- The `properties` part of an output `FlowFeature`. -/
structure FlowProperties where
  name : String
  type : FeatureType
  flows : YearFlows
deriving DecidableEq

/-- Output entity of the reconciliation engine. -/
structure FlowFeature where
  id : String
  geometry : Geometry
  properties : FlowProperties
deriving DecidableEq

/-- One entry of the `shapefileConfigs` argument. -/
structure SourceConfig where
  path : String
  typeOverride : Option FeatureType
deriving DecidableEq

/-- Diagnostics, one constructor per `console.warn` / `console.error`
site of the pipeline, with the data the log line names. -/
inductive Diag where
  | csvRowMissingMapID (row : CsvRow) : Diag
  | shapefileError (path : String) (error : String) : Diag
  | featureMissingMapID (path : String) : Diag
  | noFlowDataForMapID (mapId : String) (path : String) : Diag
  | multiLineStringNoCoordinates (mapId : String) : Diag
  | unsupportedGeometryType (mapId : String) (typeName : String) : Diag
deriving DecidableEq

/-! ## Tabular flow table parser (data.worker.ts lines 75-89) -/

/-- Is the header key exactly four decimal digits (`/^\d\x7b4\x7d$/`)? -/
def isYearKey (k : String) : Bool :=
  k.data.length == 4 && k.data.all Char.isDigit

/-- Value stored for a year cell: `isNaN(flowVal) ? 0 : flowVal` where
`flowVal = parseFloat(cell)`. -/
def coerceFlow (cell : String) : JSNum :=
  match jsParseFloat cell with
  | JSNum.nan => JSNum.num ⟨0, 0⟩
  | v => v

/-- One iteration of the `for (const key in row)` loop building `flows`. -/
def rowFlowsStep (fl : YearFlows) (kv : String × String) : YearFlows :=
  if isYearKey kv.1 then setKey fl kv.1 (coerceFlow kv.2) else fl

/-- The `flows` object built for one CSV row: every 4-digit-year column,
with unparsable cells coerced to `0`. -/
def rowFlows (row : CsvRow) : YearFlows :=
  row.foldl rowFlowsStep []

/-- Processing of one CSV row: rows with a missing or empty (falsy)
`MapID` are skipped with a diagnostic, others are entered into the map
under the trimmed identifier. -/
def stepCsvRow (m : List (String × YearFlows)) (row : CsvRow) :
    List (String × YearFlows) × Option Diag :=
  match getKey row "MapID" with
  | none => (m, some (Diag.csvRowMissingMapID row))
  | some mid =>
      if mid = "" then (m, some (Diag.csvRowMissingMapID row))
      else (setKey m (jsTrim mid) (rowFlows row), none)

/-- The `flowDataMap` built from all parsed CSV rows, together with the
row-skip diagnostics. -/
def buildFlowDataMap (rows : List CsvRow) :
    List (String × YearFlows) × List Diag :=
  rows.foldl
    (fun acc row =>
      let r := stepCsvRow acc.1 row
      (r.1, acc.2 ++ r.2.toList))
    ([], [])

/-! ## Feature classifier (data.worker.ts lines 23-48) -/

/-- Embedding of `getFeatureType`: classify by case-insensitive substring
tests on the file path, with an inner (redundant) `TYPE` attribute check
in the point/weir branch. -/
def getFeatureType (filePath : String) (properties : AttrBag) : FeatureType :=
  let lowerFilePath := jsToLowerCase filePath
  if strContains lowerFilePath "point" || strContains lowerFilePath "weir" then
    if (match getKey properties "TYPE" with
        | some t => t != "" && jsToLowerCase t == "weir"
        | none => false) then
      FeatureType.weir
    else
      FeatureType.weir
  else if strContains lowerFilePath "canal" then FeatureType.canal
  else if strContains lowerFilePath "river" then FeatureType.river
  else FeatureType.canal

/-- Classifier written from the specification's words (spec 4.2): a label
containing `point` or `weir` always yields `weir`, else `canal` wins over
`river`, else default `canal`.  Stated separately so the theorem for the
classifier claim is a genuine refinement of the code against the spec. -/
def classifySpec (sourceLabel : String) (_attributes : AttrBag) : FeatureType :=
  let lower := jsToLowerCase sourceLabel
  if strContains lower "point" || strContains lower "weir" then FeatureType.weir
  else if strContains lower "canal" then FeatureType.canal
  else if strContains lower "river" then FeatureType.river
  else FeatureType.canal

/-! ## Source reconciliation engine (data.worker.ts lines 52-187) -/

/-- Candidate attribute keys for the identifier, in probe order. -/
def mapIdPropertyKeys : List String :=
  ["MAPID", "MapID", "mapid", "SiteID", "SITEID"]

/-- Candidate attribute keys for the display name, in probe order. -/
def namePropertyKeys : List String :=
  ["NAME", "Name", "SiteName", "GNIS_Name"]

/-- Probe an attribute bag for the first candidate key bound to a
JS-truthy (non-empty) value. -/
def probeKeysList (ps : AttrBag) : List String → Option String
  | [] => none
  | k :: ks =>
      match getKey ps k with
      | some v => if v = "" then probeKeysList ps ks else some v
      | none => probeKeysList ps ks

/-- Probe a possibly-null attribute bag (`feature.properties &&
feature.properties[key]`). -/
def probeKeys (properties : Option AttrBag) (keys : List String) :
    Option String :=
  match properties with
  | some ps => probeKeysList ps keys
  | none => none

/-- The identifier resolved for a raw feature: first truthy candidate
value, trimmed. -/
def resolveMapId (f : RawGeometryFeature) : Option String :=
  (probeKeys f.properties mapIdPropertyKeys).map jsTrim

/-- The output id: `mapId + '_' + featureType`. -/
def mkId (mapId : String) (t : FeatureType) : String :=
  mapId ++ "_" ++ t.toStr

/-- Processing of one raw geometry feature: identifier probing, flow
lookup, name probing, classification, geometry normalization, feature
construction.  Returns the produced feature (if any) and the diagnostics
emitted, in order. -/
def processFeature (path : String) (typeOverride : Option FeatureType)
    (flowDataMap : List (String × YearFlows)) (feature : RawGeometryFeature) :
    Option FlowFeature × List Diag :=
  match resolveMapId feature with
  | none => (none, [Diag.featureMissingMapID path])
  | some mapId =>
      if mapId = "" then (none, [Diag.featureMissingMapID path])
      else
        let sectionFlows := getKey flowDataMap mapId
        let flowDiags :=
          match sectionFlows with
          | none => [Diag.noFlowDataForMapID mapId path]
          | some _ => []
        let name := (probeKeys feature.properties namePropertyKeys).getD "Unknown"
        let featureType :=
          typeOverride.getD (getFeatureType path (feature.properties.getD []))
        match feature.geometry with
        | some (Geometry.point c) =>
            (some ⟨mkId mapId featureType, Geometry.point c,
              ⟨name, featureType, sectionFlows.getD []⟩⟩, flowDiags)
        | some (Geometry.lineString c) =>
            (some ⟨mkId mapId featureType, Geometry.lineString c,
              ⟨name, featureType, sectionFlows.getD []⟩⟩, flowDiags)
        | some (Geometry.multiLineString parts) =>
            match parts with
            | p :: _ =>
                (some ⟨mkId mapId featureType, Geometry.lineString p,
                  ⟨name, featureType, sectionFlows.getD []⟩⟩, flowDiags)
            | [] => (none, flowDiags ++ [Diag.multiLineStringNoCoordinates mapId])
        | some (Geometry.other t) =>
            (none, flowDiags ++ [Diag.unsupportedGeometryType mapId t])
        | none => (none, flowDiags ++ [Diag.unsupportedGeometryType mapId "undefined"])

/-- One configured geometry source together with the outcome of fetching
and decoding its payload (shp+dbf fetch plus `shapefile.read`, which the
worker awaits as one unit inside the per-source `try`). -/
abbrev SourceEntry := SourceConfig × Except String (List RawGeometryFeature)

/-- Processing of one geometry source: a failed fetch/decode is caught,
logged with the source path, and contributes zero features; a decoded
source contributes its features in order. -/
def processSource (flowDataMap : List (String × YearFlows))
    (entry : SourceEntry) : List FlowFeature × List Diag :=
  match entry.2 with
  | Except.error e => ([], [Diag.shapefileError entry.1.path e])
  | Except.ok feats =>
      ((feats.map (fun f =>
          (processFeature entry.1.path entry.1.typeOverride flowDataMap f).1.toList)).flatten,
       (feats.map (fun f =>
          (processFeature entry.1.path entry.1.typeOverride flowDataMap f).2)).flatten)

/-- The whole reconciliation run after a successful table fetch: build the
flow map once, then process every source independently, concatenating
features and diagnostics in source order. -/
def runReconcile (rows : List CsvRow) (sources : List SourceEntry) :
    List FlowFeature × List Diag :=
  let built := buildFlowDataMap rows
  ((sources.map (fun s => (processSource built.1 s).1)).flatten,
   built.2 ++ (sources.map (fun s => (processSource built.1 s).2)).flatten)

/-- Embedding of `fetchAndProcessDataForAllSources`: a failed fetch of the
tabular source is rethrown by the outer catch and rejects the whole run;
otherwise the run always succeeds with the reconciled features and the
accumulated diagnostics. -/
def fetchAndProcessDataForAllSources (csvResult : Except String (List CsvRow))
    (sources : List SourceEntry) :
    Except String (List FlowFeature × List Diag) :=
  match csvResult with
  | Except.error e => Except.error e
  | Except.ok rows => Except.ok (runReconcile rows sources)

/-! ## Helper lemmas: association lists -/

theorem string_data_append (a b : String) : (a ++ b).data = a.data ++ b.data := rfl

theorem getKey_nil {α : Type} (k : String) : getKey ([] : List (String × α)) k = none := rfl

theorem getKey_cons {α : Type} (k₀ k : String) (v : α) (m : List (String × α)) :
    getKey ((k₀, v) :: m) k = if k₀ = k then some v else getKey m k := by
  by_cases h : k₀ = k <;> simp [getKey, List.find?_cons, h]

theorem getKey_eq_none_of_not_mem {α : Type} (m : List (String × α)) (k : String)
    (h : k ∉ m.map Prod.fst) : getKey m k = none := by
  induction m with
  | nil => rfl
  | cons kv rest ih =>
      obtain ⟨k₁, v₁⟩ := kv
      simp only [List.map_cons, List.mem_cons, not_or] at h
      rw [getKey_cons, if_neg (fun hh => h.1 hh.symm), ih h.2]

theorem getKey_map_overwrite {α : Type} (m : List (String × α)) (k k' : String) (v : α)
    (hne : k ≠ k') :
    getKey (m.map (fun kv => if kv.1 = k then (k, v) else kv)) k' = getKey m k' := by
  induction m with
  | nil => rfl
  | cons kv rest ih =>
      obtain ⟨k₁, v₁⟩ := kv
      by_cases h : k₁ = k
      · subst h
        simp [getKey_cons, hne, ih]
      · simp [getKey_cons, h, ih]

theorem getKey_setKey {α : Type} (m : List (String × α)) (k k' : String) (v : α) :
    getKey (setKey m k v) k' = if k = k' then some v else getKey m k' := by
  induction m with
  | nil =>
      by_cases h : k = k' <;> simp [setKey, getKey_cons, getKey_nil, h]
  | cons kv rest ih =>
      obtain ⟨k₁, v₁⟩ := kv
      by_cases h₁ : k₁ = k
      · subst h₁
        have hc : (((k₁, v₁) :: rest).any fun kv => kv.1 == k₁) = true := by simp
        rw [setKey, if_pos hc]
        by_cases h' : k₁ = k'
        · subst h'
          simp [getKey_cons]
        · simp [getKey_cons, h', getKey_map_overwrite rest k₁ k' v h']
      · by_cases h₂ : (rest.any fun kv => kv.1 == k) = true
        · have hc : (((k₁, v₁) :: rest).any fun kv => kv.1 == k) = true := by
            simp [List.any_cons, h₂]
          rw [setKey, if_pos hc]
          have ih' : getKey (rest.map (fun kv => if kv.1 = k then (k, v) else kv)) k' =
              if k = k' then some v else getKey rest k' := by
            rw [← ih, setKey, if_pos h₂]
          by_cases h' : k₁ = k'
          · subst h'
            simp [getKey_cons, h₁, Ne.symm h₁]
          · simp [getKey_cons, h₁, h', ih']
        · have hc : ¬ ((((k₁, v₁) :: rest).any fun kv => kv.1 == k) = true) := by
            simp only [List.any_cons, Bool.or_eq_true, not_or]
            exact ⟨by simpa using h₁, h₂⟩
          rw [setKey, if_neg hc, List.cons_append]
          have ih' : getKey (rest ++ [(k, v)]) k' =
              if k = k' then some v else getKey rest k' := by
            rw [← ih, setKey, if_neg h₂]
          by_cases h' : k₁ = k'
          · subst h'
            simp [getKey_cons, Ne.symm h₁]
          · rw [getKey_cons, if_neg h', ih', getKey_cons, if_neg h']

theorem mem_setKey {α : Type} {m : List (String × α)} {k : String} {v : α}
    {p : String × α} (hp : p ∈ setKey m k v) : p = (k, v) ∨ p ∈ m := by
  unfold setKey at hp
  by_cases h : m.any (fun kv => kv.1 == k) = true
  · rw [if_pos h] at hp
    obtain ⟨q, hq, hfq⟩ := List.mem_map.mp hp
    by_cases hq1 : q.1 = k
    · left; rw [if_pos hq1] at hfq; exact hfq.symm
    · right; rw [if_neg hq1] at hfq; exact hfq ▸ hq
  · rw [if_neg h] at hp
    rcases List.mem_append.mp hp with h1 | h1
    · exact Or.inr h1
    · left; simpa using h1

theorem getKey_mem {α : Type} {m : List (String × α)} {k : String} {v : α}
    (h : getKey m k = some v) : (k, v) ∈ m := by
  unfold getKey at h
  cases hf : m.find? (fun kv => kv.1 == k) with
  | none => rw [hf] at h; exact absurd h (by simp)
  | some kv =>
      rw [hf] at h
      have hm := List.mem_of_find?_eq_some hf
      have hp := List.find?_some hf
      obtain ⟨a, b⟩ := kv
      simp only [beq_iff_eq] at hp
      simp only [Option.some.injEq] at h
      subst hp; subst h
      exact hm

/-! ## Helper lemmas: row parsing -/

theorem jsTrim_eq_empty (s : String) (h : ∀ c ∈ s.data, c.isWhitespace = true) :
    jsTrim s = "" := by
  unfold jsTrim
  rw [List.dropWhile_eq_nil_iff.mpr h]
  rfl

theorem coerceFlow_ne_nan (s : String) : coerceFlow s ≠ JSNum.nan := by
  unfold coerceFlow
  cases h : jsParseFloat s <;> simp

theorem getKey_foldl_rowFlowsStep (row : CsvRow) :
    ∀ (fl : YearFlows) (k : String), (row.map Prod.fst).Nodup →
      getKey (row.foldl rowFlowsStep fl) k =
        match getKey row k with
        | some cell => if isYearKey k then some (coerceFlow cell) else getKey fl k
        | none => getKey fl k := by
  induction row with
  | nil => intro fl k _; rfl
  | cons kv rest ih =>
      intro fl k hnd
      obtain ⟨k₀, c₀⟩ := kv
      simp only [List.map_cons, List.nodup_cons] at hnd
      rw [List.foldl_cons, ih (rowFlowsStep fl (k₀, c₀)) k hnd.2]
      by_cases hk : k₀ = k
      · subst hk
        have hrest : getKey rest k₀ = none :=
          getKey_eq_none_of_not_mem rest k₀ hnd.1
        rw [hrest, getKey_cons, if_pos rfl]
        by_cases hy : isYearKey k₀ = true
        · simp [rowFlowsStep, hy, getKey_setKey]
        · simp [rowFlowsStep, hy]
      · have hstep : getKey (rowFlowsStep fl (k₀, c₀)) k = getKey fl k := by
          by_cases hy : isYearKey k₀ = true
          · simp [rowFlowsStep, hy, getKey_setKey, hk]
          · simp [rowFlowsStep, hy]
        rw [getKey_cons, if_neg hk]
        cases hr : getKey rest k <;> simp [hstep]

theorem getKey_rowFlows (row : CsvRow) (k : String)
    (hnd : (row.map Prod.fst).Nodup) :
    getKey (rowFlows row) k =
      if isYearKey k then (getKey row k).map coerceFlow else none := by
  rw [rowFlows, getKey_foldl_rowFlowsStep row [] k hnd]
  cases h : getKey row k <;> by_cases hy : isYearKey k = true <;>
    simp [hy, getKey_nil]

theorem foldl_rowFlowsStep_ne_nan (row : CsvRow) :
    ∀ (fl : YearFlows), (∀ p ∈ fl, p.2 ≠ JSNum.nan) →
      ∀ p ∈ row.foldl rowFlowsStep fl, p.2 ≠ JSNum.nan := by
  induction row with
  | nil => intro fl h p hp; exact h p hp
  | cons kv rest ih =>
      intro fl h p hp
      rw [List.foldl_cons] at hp
      refine ih (rowFlowsStep fl kv) ?_ p hp
      intro q hq
      unfold rowFlowsStep at hq
      by_cases hy : isYearKey kv.1 = true
      · rw [if_pos hy] at hq
        rcases mem_setKey hq with h1 | h1
        · rw [h1]; exact coerceFlow_ne_nan kv.2
        · exact h q h1
      · rw [if_neg hy] at hq
        exact h q hq

theorem rowFlows_ne_nan (row : CsvRow) (p : String × JSNum)
    (hp : p ∈ rowFlows row) : p.2 ≠ JSNum.nan :=
  foldl_rowFlowsStep_ne_nan row [] (by intro q hq; cases hq) p hp

theorem stepCsvRow_mem (m : List (String × YearFlows)) (row : CsvRow)
    (q : String × YearFlows) (hq : q ∈ (stepCsvRow m row).1) :
    q ∈ m ∨ q.2 = rowFlows row := by
  unfold stepCsvRow at hq
  split at hq
  · exact Or.inl hq
  · split at hq
    · exact Or.inl hq
    · rcases mem_setKey hq with h1 | h1
      · right; rw [h1]
      · exact Or.inl h1

theorem csvFold_flows_ne_nan (rows : List CsvRow) :
    ∀ (acc : List (String × YearFlows) × List Diag),
      (∀ q ∈ acc.1, ∀ p ∈ q.2, p.2 ≠ JSNum.nan) →
      ∀ q ∈ (rows.foldl
        (fun acc row =>
          let r := stepCsvRow acc.1 row
          (r.1, acc.2 ++ r.2.toList)) acc).1,
        ∀ p ∈ q.2, p.2 ≠ JSNum.nan := by
  induction rows with
  | nil => intro acc h q hq p hp; exact h q hq p hp
  | cons row rest ih =>
      intro acc h q hq p hp
      rw [List.foldl_cons] at hq
      refine ih _ ?_ q hq p hp
      intro q' hq' p' hp'
      rcases stepCsvRow_mem acc.1 row q' hq' with h1 | h1
      · exact h q' h1 p' hp'
      · exact rowFlows_ne_nan row p' (h1 ▸ hp')

theorem buildFlowDataMap_flows_ne_nan (rows : List CsvRow)
    (q : String × YearFlows) (hq : q ∈ (buildFlowDataMap rows).1)
    (p : String × JSNum) (hp : p ∈ q.2) : p.2 ≠ JSNum.nan :=
  csvFold_flows_ne_nan rows ([], []) (by intro q' hq'; cases hq') q hq p hp

/-! ## Helper lemmas: feature processing -/

theorem resolveMapId_mk (g : Option Geometry) (props : Option AttrBag) :
    resolveMapId ⟨g, props⟩ = (probeKeys props mapIdPropertyKeys).map jsTrim := rfl

theorem processFeature_some (path : String) (tov : Option FeatureType)
    (m : List (String × YearFlows)) (f : RawGeometryFeature)
    (ff : FlowFeature) (ds : List Diag)
    (h : processFeature path tov m f = (some ff, ds)) :
    ∃ mid, resolveMapId f = some mid ∧ mid ≠ "" ∧
      ff.id = mkId mid ff.properties.type ∧
      ff.properties.flows = (getKey m mid).getD [] := by
  cases hr : resolveMapId f with
  | none =>
      unfold processFeature at h
      rw [hr] at h
      simp at h
  | some mid =>
      unfold processFeature at h
      rw [hr] at h
      by_cases h0 : mid = ""
      · simp [h0] at h
      · refine ⟨mid, rfl, h0, ?_⟩
        cases hg : f.geometry with
        | none =>
            rw [hg] at h
            simp [h0] at h
        | some g =>
            rw [hg] at h
            cases g with
            | point c =>
                simp [h0] at h
                obtain ⟨hff, _⟩ := h
                subst hff
                exact ⟨rfl, rfl⟩
            | lineString c =>
                simp [h0] at h
                obtain ⟨hff, _⟩ := h
                subst hff
                exact ⟨rfl, rfl⟩
            | multiLineString parts =>
                cases parts with
                | nil => simp [h0] at h
                | cons p ps =>
                    simp [h0] at h
                    obtain ⟨hff, _⟩ := h
                    subst hff
                    exact ⟨rfl, rfl⟩
            | other t => simp [h0] at h

theorem mem_runReconcile_features (rows : List CsvRow) (sources : List SourceEntry)
    (ff : FlowFeature) (hff : ff ∈ (runReconcile rows sources).1) :
    ∃ entry ∈ sources, ∃ feats, entry.2 = Except.ok feats ∧
      ∃ f ∈ feats,
        (processFeature entry.1.path entry.1.typeOverride
          (buildFlowDataMap rows).1 f).1 = some ff := by
  unfold runReconcile at hff
  simp only [List.mem_flatten, List.mem_map] at hff
  obtain ⟨l, ⟨entry, hentry, hl⟩, hffl⟩ := hff
  subst hl
  refine ⟨entry, hentry, ?_⟩
  unfold processSource at hffl
  cases he : entry.2 with
  | error e => rw [he] at hffl; simp at hffl
  | ok feats =>
      rw [he] at hffl
      simp only [List.mem_flatten, List.mem_map] at hffl
      obtain ⟨l', ⟨f, hf, hl'⟩, hffl'⟩ := hffl
      subst hl'
      refine ⟨feats, rfl, f, hf, ?_⟩
      simpa using hffl'

/-! ## Background execution shim (useFlowData module state) -/

/-- Module-level state of the `useFlowData` shim: the two result caches and
the in-flight flag of the source, plus bookkeeping for the verification:
`workerAlive` records that the worker has not been terminated yet, and
`runsStarted` counts how many `postMessage('loadData')` reconciliation
requests have ever been sent. -/
structure ShimState where
  workerDataCache : Option (List FlowFeature)
  workerErrorCache : Option String
  isLoadingData : Bool
  workerAlive : Bool
  runsStarted : Nat
deriving DecidableEq

/-- The module top-level code of `useFlowData.ts`, executed exactly once
per process when the module is first evaluated: when `Worker` is supported
and nothing is cached or in flight, spawn the worker, mark loading, and
post the single load request; when `Worker` is unsupported, cache the
support error. -/
def shimInit (workerSupported : Bool) : ShimState :=
  let s0 : ShimState := ⟨none, none, false, false, 0⟩
  if workerSupported && s0.workerDataCache.isNone && !s0.isLoadingData then
    { s0 with
      isLoadingData := true, workerAlive := true,
      runsStarted := s0.runsStarted + 1 }
  else if !workerSupported then
    { s0 with workerErrorCache := some "Web Workers are not supported." }
  else s0

/-- Events the shim reacts to after module initialisation: the worker's
single `dataLoaded`/`dataError` message, a worker `onerror`, or a consumer
request polling the caches (the `queryFn` of `useFlowData`). -/
inductive ShimEvent where
  | workerMessage (payload : Except String (List FlowFeature)) : ShimEvent
  | workerFailure (message : String) : ShimEvent
  | queryRequest : ShimEvent

/-- State transition of the shim.  The `onmessage`/`onerror` handlers fill
exactly one cache, clear the in-flight flag and terminate the worker (so
they can fire at most once); a consumer request only reads the module
state — the hook never constructs a worker nor mutates the caches. -/
def shimStep (s : ShimState) : ShimEvent → ShimState
  | .workerMessage payload =>
      if s.workerAlive then
        match payload with
        | .ok data =>
            { s with
              workerDataCache := some data, workerErrorCache := none,
              isLoadingData := false, workerAlive := false }
        | .error msg =>
            { s with
              workerErrorCache := some msg, workerDataCache := none,
              isLoadingData := false, workerAlive := false }
      else s
  | .workerFailure msg =>
      if s.workerAlive then
        { s with
          workerErrorCache := some msg, workerDataCache := none,
          isLoadingData := false, workerAlive := false }
      else s
  | .queryRequest => s

/-- Run the shim from module initialisation through a sequence of events. -/
def shimRun (workerSupported : Bool) (evs : List ShimEvent) : ShimState :=
  evs.foldl shimStep (shimInit workerSupported)

/-- What a pending `checkData` poll of the hook resolves to in a given
state: the error cache takes priority, then the data cache; `none` while
the load is still in flight (the poll re-arms via `setTimeout`). -/
def resolveResult (s : ShimState) : Option (Except String (List FlowFeature)) :=
  match s.workerErrorCache with
  | some e => some (Except.error e)
  | none =>
      match s.workerDataCache with
      | some d => some (Except.ok d)
      | none =>
          if !s.isLoadingData then
            some (Except.error "Failed to load data from worker.")
          else none

/-- Invariant: while the worker is alive, nothing is cached and the load
is marked in flight. -/
def ShimInv (s : ShimState) : Prop :=
  s.workerAlive = true →
    s.workerDataCache = none ∧ s.workerErrorCache = none ∧ s.isLoadingData = true

theorem shimStep_runsStarted (s : ShimState) (e : ShimEvent) :
    (shimStep s e).runsStarted = s.runsStarted := by
  cases e with
  | workerMessage p =>
      by_cases h : s.workerAlive = true <;> cases p <;> simp [shimStep, h]
  | workerFailure msg =>
      by_cases h : s.workerAlive = true <;> simp [shimStep, h]
  | queryRequest => rfl

theorem foldl_shimStep_runsStarted (evs : List ShimEvent) :
    ∀ s : ShimState, (evs.foldl shimStep s).runsStarted = s.runsStarted := by
  induction evs with
  | nil => intro s; rfl
  | cons e rest ih =>
      intro s
      rw [List.foldl_cons, ih, shimStep_runsStarted]

theorem shimInit_true : shimInit true =
    ⟨none, none, true, true, 1⟩ := rfl

theorem shimInv_init : ShimInv (shimInit true) := by
  intro _
  exact ⟨rfl, rfl, rfl⟩

theorem shimInv_step (s : ShimState) (e : ShimEvent) (h : ShimInv s) :
    ShimInv (shimStep s e) := by
  cases e with
  | workerMessage p =>
      by_cases ha : s.workerAlive = true
      · cases p <;> simp [shimStep, ha, ShimInv]
      · simpa [shimStep, ha] using h
  | workerFailure msg =>
      by_cases ha : s.workerAlive = true
      · simp [shimStep, ha, ShimInv]
      · simpa [shimStep, ha] using h
  | queryRequest => exact h

theorem shimRun_inv (evs : List ShimEvent) : ShimInv (shimRun true evs) := by
  rw [shimRun]
  have : ∀ (l : List ShimEvent) (s : ShimState), ShimInv s →
      ShimInv (l.foldl shimStep s) := by
    intro l
    induction l with
    | nil => intro s hs; exact hs
    | cons e rest ih =>
        intro s hs
        rw [List.foldl_cons]
        exact ih _ (shimInv_step s e hs)
  exact this evs _ shimInv_init

theorem resolved_not_alive (s : ShimState) (hinv : ShimInv s)
    (r : Except String (List FlowFeature)) (h : resolveResult s = some r) :
    s.workerAlive = false := by
  by_cases ha : s.workerAlive = true
  · obtain ⟨h1, h2, h3⟩ := hinv ha
    unfold resolveResult at h
    rw [h2, h1, h3] at h
    simp at h
  · simpa using ha

theorem shimStep_of_not_alive (s : ShimState) (e : ShimEvent)
    (ha : s.workerAlive = false) : shimStep s e = s := by
  cases e with
  | workerMessage p => cases p <;> simp [shimStep, ha]
  | workerFailure msg => simp [shimStep, ha]
  | queryRequest => rfl

theorem resolve_stable (more : List ShimEvent) :
    ∀ (s : ShimState) (r : Except String (List FlowFeature)), ShimInv s →
      resolveResult s = some r →
      resolveResult (more.foldl shimStep s) = some r := by
  induction more with
  | nil => intro s r _ h; exact h
  | cons e rest ih =>
      intro s r hinv h
      rw [List.foldl_cons,
        shimStep_of_not_alive s e (resolved_not_alive s hinv r h)]
      exact ih s r hinv h

/-! ## Claim theorems -/

/-- C1: `fetchAndProcessDataForAllSources` fails exactly when the tabular
source's fetch/decode fails (the error is propagated); a geometry-source
entry whose fetch/decode fails contributes zero features (the run on the
remaining sources yields the same feature list), a diagnostic naming the
source is logged, and all remaining sources are still processed. -/
theorem reconcile_fails_only_on_table_failure
    (e err : String) (rows : List CsvRow) (sources pre post : List SourceEntry)
    (cfg : SourceConfig) :
    fetchAndProcessDataForAllSources (Except.error e) sources = Except.error e ∧
    fetchAndProcessDataForAllSources (Except.ok rows) sources =
      Except.ok (runReconcile rows sources) ∧
    (runReconcile rows (pre ++ (cfg, Except.error err) :: post)).1 =
      (runReconcile rows (pre ++ post)).1 ∧
    Diag.shapefileError cfg.path err ∈
      (runReconcile rows (pre ++ (cfg, Except.error err) :: post)).2 := by
  refine ⟨rfl, rfl, ?_, ?_⟩
  · simp [runReconcile, List.map_append, List.flatten_append, processSource]
  · unfold runReconcile
    refine List.mem_append_right _ ?_
    rw [List.mem_flatten]
    refine ⟨[Diag.shapefileError cfg.path err], ?_, by simp⟩
    rw [List.mem_map]
    exact ⟨(cfg, Except.error err), by simp, by simp [processSource]⟩

/-- C7: the feature classifier of the code coincides, for every source
label and attribute bag, with the classifier written from the spec's
words: a label containing `point` or `weir` (case-insensitively) always
returns `weir` regardless of the `TYPE` attribute, else `canal` substring
wins, else `river` substring, else the default `canal`.  Both functions
are total Lean functions, so the classifier never throws. -/
theorem getFeatureType_matches_spec (path : String) (props : AttrBag) :
    getFeatureType path props = classifySpec path props := by
  unfold getFeatureType classifySpec
  by_cases h : (strContains (jsToLowerCase path) "point" ||
      strContains (jsToLowerCase path) "weir") = true
  · simp [h]
  · simp [h]

/-- C8: the reconciliation is a pure function of its inputs (the embedding
has no other state, matching the worker code whose only effects are the
modelled fetches and logs), so two runs on identical inputs are equal; and
the output feature list is exactly the source-order concatenation of the
per-source feature lists, which are themselves in raw-feature order. -/
theorem reconciliation_deterministic
    (csv : Except String (List CsvRow)) (sources : List SourceEntry)
    (rows : List CsvRow) (cfg : SourceConfig) (feats : List RawGeometryFeature) :
    fetchAndProcessDataForAllSources csv sources =
      fetchAndProcessDataForAllSources csv sources ∧
    (runReconcile rows sources).1 =
      (sources.map (fun s => (processSource (buildFlowDataMap rows).1 s).1)).flatten ∧
    (processSource (buildFlowDataMap rows).1 (cfg, Except.ok feats)).1 =
      (feats.map (fun f =>
        (processFeature cfg.path cfg.typeOverride (buildFlowDataMap rows).1 f).1.toList)).flatten :=
  ⟨rfl, rfl, rfl⟩

/-- C10: a CSV row whose `MapID` cell is non-empty but all-whitespace is
not skipped (the falsy check tests the untrimmed cell): no diagnostic is
emitted and its flows are stored under the empty-string key produced by
trimming. -/
theorem whitespace_identifier_stored_under_empty_key
    (m : List (String × YearFlows)) (row : CsvRow) (mid : String)
    (hmid : getKey row "MapID" = some mid) (hne : mid ≠ "")
    (hws : ∀ c ∈ mid.data, c.isWhitespace = true) :
    stepCsvRow m row = (setKey m "" (rowFlows row), none) := by
  unfold stepCsvRow
  rw [hmid]
  simp [hne, jsTrim_eq_empty mid hws]

/-- Witness for C10 at a concrete input: a row with `MapID` equal to a
single space is stored under the key `""` with no diagnostic. -/
theorem whitespace_identifier_witness :
    stepCsvRow [] [("MapID", " "), ("1979", "7")] =
      (setKey [] "" (rowFlows [("MapID", " "), ("1979", "7")]), none) :=
  whitespace_identifier_stored_under_empty_key [] [("MapID", " "), ("1979", "7")]
    " " (by decide) (by decide) (by decide)

/-- C4: for a table row with a non-empty (truthy) identifier, the row is
stored (no diagnostic) and for every column: a 4-digit-year column's
stored value is the parsed float of the cell, with a failed parse
(including the empty cell) stored as exactly `0` and never `NaN`; a
non-year column contributes no entry. -/
theorem year_column_parsing
    (m : List (String × YearFlows)) (row : CsvRow) (mid k cell : String)
    (hmid : getKey row "MapID" = some mid) (hne : mid ≠ "")
    (hnd : (row.map Prod.fst).Nodup) :
    stepCsvRow m row = (setKey m (jsTrim mid) (rowFlows row), none) ∧
    (getKey row k = some cell → isYearKey k = true →
      getKey (rowFlows row) k = some (coerceFlow cell)) ∧
    (isYearKey k = false → getKey (rowFlows row) k = none) ∧
    (jsParseFloat cell = JSNum.nan → coerceFlow cell = JSNum.num ⟨0, 0⟩) ∧
    (jsParseFloat cell ≠ JSNum.nan → coerceFlow cell = jsParseFloat cell) ∧
    coerceFlow cell ≠ JSNum.nan ∧
    jsParseFloat "" = JSNum.nan := by
  refine ⟨?_, ?_, ?_, ?_, ?_, coerceFlow_ne_nan cell, rfl⟩
  · unfold stepCsvRow
    rw [hmid]
    simp [hne]
  · intro hcell hy
    rw [getKey_rowFlows row k hnd, if_pos hy, hcell, Option.map_some']
  · intro hy
    rw [getKey_rowFlows row k hnd, if_neg (by simp [hy])]
  · intro hp
    unfold coerceFlow
    rw [hp]
  · intro hp
    unfold coerceFlow
    cases hv : jsParseFloat cell with
    | nan => exact absurd hv hp
    | inf b => rfl
    | num v => rfl

/-- Witness for C4 at a concrete row: the year column `1979` stores the
parsed value of `3.5`, the non-year column `NOTE` stores nothing, and an
unparsable cell would store zero. -/
theorem year_column_parsing_witness :
    (stepCsvRow [] [("MapID", "R1"), ("1979", "3.5"), ("NOTE", "x")] =
      (setKey [] (jsTrim "R1")
        (rowFlows [("MapID", "R1"), ("1979", "3.5"), ("NOTE", "x")]), none)) ∧
    (getKey [("MapID", "R1"), ("1979", "3.5"), ("NOTE", "x")] "1979" = some "3.5" →
      isYearKey "1979" = true →
      getKey (rowFlows [("MapID", "R1"), ("1979", "3.5"), ("NOTE", "x")]) "1979" =
        some (coerceFlow "3.5")) ∧
    (isYearKey "1979" = false →
      getKey (rowFlows [("MapID", "R1"), ("1979", "3.5"), ("NOTE", "x")]) "1979" = none) ∧
    (jsParseFloat "3.5" = JSNum.nan → coerceFlow "3.5" = JSNum.num ⟨0, 0⟩) ∧
    (jsParseFloat "3.5" ≠ JSNum.nan → coerceFlow "3.5" = jsParseFloat "3.5") ∧
    coerceFlow "3.5" ≠ JSNum.nan ∧
    jsParseFloat "" = JSNum.nan :=
  year_column_parsing [] [("MapID", "R1"), ("1979", "3.5"), ("NOTE", "x")]
    "R1" "1979" "3.5" (by decide) (by decide) (by decide)

/-- C3: for a raw feature with a resolvable, non-empty identifier: a
multi-polyline with at least one part is normalized to a polyline whose
coordinates are exactly the first part's; a zero-part multi-polyline is
skipped with a diagnostic and produces no feature; a geometry of any
unsupported kind is skipped with a diagnostic naming that kind. -/
theorem multiPolyline_normalization
    (path : String) (tov : Option FeatureType) (m : List (String × YearFlows))
    (props : Option AttrBag) (mid : String)
    (hres : (probeKeys props mapIdPropertyKeys).map jsTrim = some mid)
    (hne : mid ≠ "") :
    (∀ p ps, ∃ ff ds,
      processFeature path tov m ⟨some (Geometry.multiLineString (p :: ps)), props⟩ =
        (some ff, ds) ∧ ff.geometry = Geometry.lineString p) ∧
    ((processFeature path tov m ⟨some (Geometry.multiLineString []), props⟩).1 = none ∧
      Diag.multiLineStringNoCoordinates mid ∈
        (processFeature path tov m ⟨some (Geometry.multiLineString []), props⟩).2) ∧
    (∀ t, (processFeature path tov m ⟨some (Geometry.other t), props⟩).1 = none ∧
      Diag.unsupportedGeometryType mid t ∈
        (processFeature path tov m ⟨some (Geometry.other t), props⟩).2) := by
  have hres' : ∀ g : Option Geometry, resolveMapId ⟨g, props⟩ = some mid := by
    intro g
    rw [resolveMapId_mk]
    exact hres
  refine ⟨?_, ⟨?_, ?_⟩, ?_⟩
  · intro p ps
    unfold processFeature
    rw [hres' (some (Geometry.multiLineString (p :: ps)))]
    simp [hne]
  · unfold processFeature
    rw [hres' (some (Geometry.multiLineString []))]
    simp [hne]
  · unfold processFeature
    rw [hres' (some (Geometry.multiLineString []))]
    simp [hne]
  · intro t
    unfold processFeature
    rw [hres' (some (Geometry.other t))]
    constructor
    · simp [hne]
    · simp [hne]

/-- Witness for C3 at a concrete input: a zero-part multi-polyline feature
with identifier `A` is skipped with its diagnostic. -/
theorem multiPolyline_normalization_witness :
    (processFeature "x.shp" none []
      ⟨some (Geometry.multiLineString []), some [("MapID", "A")]⟩).1 = none ∧
    Diag.multiLineStringNoCoordinates "A" ∈
      (processFeature "x.shp" none []
        ⟨some (Geometry.multiLineString []), some [("MapID", "A")]⟩).2 :=
  (multiPolyline_normalization "x.shp" none [] (some [("MapID", "A")]) "A"
    (by decide) (by decide)).2.1

theorem featureType_toStr_inj (t₁ t₂ : FeatureType) (h : t₁.toStr = t₂.toStr) :
    t₁ = t₂ := by
  cases t₁ <;> cases t₂ <;> first | rfl | exact absurd h (by decide)

theorem mkId_category_inj (mid : String) (t₁ t₂ : FeatureType)
    (h : mkId mid t₁ = mkId mid t₂) : t₁ = t₂ := by
  apply featureType_toStr_inj
  apply String.ext
  have hd := congrArg String.data h
  rw [mkId, mkId, string_data_append, string_data_append,
    string_data_append, string_data_append] at hd
  exact List.append_cancel_left hd

/-- C2 counterexample: full pairwise distinctness of output ids fails — a
source containing two features with the same identifier and the same
category yields two output features with the identical id `A_canal`. -/
theorem duplicate_id_counterexample :
    (fetchAndProcessDataForAllSources (Except.ok [])
        [(⟨"canals.shp", none⟩, Except.ok
            [⟨some (Geometry.point []), some [("MapID", "A")]⟩,
             ⟨some (Geometry.point []), some [("MapID", "A")]⟩])]).map
        (fun out => out.1.map FlowFeature.id) =
      Except.ok ["A_canal", "A_canal"] ∧
    ¬ (["A_canal", "A_canal"] : List String).Nodup := by
  exact ⟨rfl, by decide⟩

/-- C2 amended: every produced FlowFeature's id is the resolved identifier
concatenated with an underscore and the category string, and for a fixed
identifier, distinct categories always give distinct ids (the uniqueness
the spec motivates); distinctness fails only when both the identifier and
the category coincide, as the counterexample shows. -/
theorem id_composition_and_category_uniqueness
    (path : String) (tov : Option FeatureType) (m : List (String × YearFlows))
    (f : RawGeometryFeature) (ff : FlowFeature) (ds : List Diag)
    (h : processFeature path tov m f = (some ff, ds)) :
    (∃ mid, resolveMapId f = some mid ∧ ff.id = mkId mid ff.properties.type) ∧
    (∀ mid t₁ t₂, t₁ ≠ t₂ → mkId mid t₁ ≠ mkId mid t₂) := by
  constructor
  · obtain ⟨mid, h1, _, h3, _⟩ := processFeature_some path tov m f ff ds h
    exact ⟨mid, h1, h3⟩
  · intro mid t₁ t₂ hne heq
    exact hne (mkId_category_inj mid t₁ t₂ heq)

/-- Witness for the amended C2 theorem at a concrete input: the same
identifier in two categories yields distinct ids. -/
theorem id_composition_witness :
    mkId "A" FeatureType.canal ≠ mkId "A" FeatureType.river :=
  (id_composition_and_category_uniqueness "canals.shp" none []
      ⟨some (Geometry.point []), some [("MapID", "A")]⟩
      ⟨"A_canal", Geometry.point [], ⟨"Unknown", FeatureType.canal, []⟩⟩
      [Diag.noFlowDataForMapID "A" "canals.shp"] rfl).2
    "A" FeatureType.canal FeatureType.river (by decide)

/-- C5 counterexample: a cell holding the literal `Infinity` parses to a
non-NaN value, survives the `isNaN` guard, and is stored and emitted as an
infinite (non-finite) flow value, refuting "every value in flows is a
finite number". -/
theorem flows_infinity_counterexample :
    fetchAndProcessDataForAllSources
        (Except.ok [[("MapID", "A"), ("1979", "Infinity")]])
        [(⟨"canals.shp", none⟩, Except.ok
            [⟨some (Geometry.point []), some [("MAPID", "A")]⟩])] =
      Except.ok ([⟨"A_canal", Geometry.point [],
          ⟨"Unknown", FeatureType.canal, [("1979", JSNum.inf false)]⟩⟩], []) ∧
    JSNum.isFinite (JSNum.inf false) = false :=
  ⟨rfl, rfl⟩

/-- C5 amended: every value in `properties.flows` of every output feature
is never `NaN` (the parser's `isNaN` guard coerces failed parses to zero),
though it need not be finite — an `Infinity` cell is stored as-is; and
`flows` is a mandatory field of the output record (an unmatched identifier
yields the empty mapping, see the unmatched-identifier theorem). -/
theorem flows_values_never_nan
    (csv : Except String (List CsvRow)) (sources : List SourceEntry)
    (out : List FlowFeature × List Diag) (ff : FlowFeature) (y : String) (v : JSNum)
    (hrun : fetchAndProcessDataForAllSources csv sources = Except.ok out)
    (hff : ff ∈ out.1) (hv : (y, v) ∈ ff.properties.flows) :
    v ≠ JSNum.nan := by
  cases csv with
  | error e => exact absurd hrun (by simp [fetchAndProcessDataForAllSources])
  | ok rows =>
      have hout : out = runReconcile rows sources := by
        unfold fetchAndProcessDataForAllSources at hrun
        exact (Except.ok.inj hrun).symm
      subst hout
      obtain ⟨entry, hentry, feats, hfe, f, hf, hpf⟩ :=
        mem_runReconcile_features rows sources ff hff
      have hpair : processFeature entry.1.path entry.1.typeOverride
          (buildFlowDataMap rows).1 f =
          (some ff, (processFeature entry.1.path entry.1.typeOverride
            (buildFlowDataMap rows).1 f).2) := by
        rw [← hpf]
      obtain ⟨mid, _, _, _, hflows⟩ :=
        processFeature_some entry.1.path entry.1.typeOverride
          (buildFlowDataMap rows).1 f ff _ hpair
      cases hgk : getKey (buildFlowDataMap rows).1 mid with
      | none =>
          rw [hflows, hgk] at hv
          cases hv
      | some fl =>
          rw [hflows, hgk] at hv
          exact buildFlowDataMap_flows_ne_nan rows (mid, fl) (getKey_mem hgk)
            (y, v) (by simpa using hv)

/-- Witness for the amended C5 theorem: the infinite flow value emitted in
the Infinity run is not `NaN`. -/
theorem flows_values_never_nan_witness :
    JSNum.inf false ≠ JSNum.nan :=
  flows_values_never_nan
    (Except.ok [[("MapID", "A"), ("1979", "Infinity")]])
    [(⟨"canals.shp", none⟩, Except.ok
        [⟨some (Geometry.point []), some [("MAPID", "A")]⟩])]
    ([⟨"A_canal", Geometry.point [],
        ⟨"Unknown", FeatureType.canal, [("1979", JSNum.inf false)]⟩⟩], [])
    ⟨"A_canal", Geometry.point [],
      ⟨"Unknown", FeatureType.canal, [("1979", JSNum.inf false)]⟩⟩
    "1979" (JSNum.inf false) rfl (by simp) (by simp)

/-- C6 counterexample: a geometry feature whose identifier has no flow-table
entry but whose geometry kind is unsupported is skipped — the run produces
zero FlowFeatures (though the unmatched-identifier diagnostic is logged),
refuting "the resulting FlowFeature is still produced ... not skipped" for
every such feature. -/
theorem unmatched_identifier_counterexample :
    fetchAndProcessDataForAllSources (Except.ok [])
        [(⟨"rivers.shp", none⟩, Except.ok
            [⟨some (Geometry.other "Polygon"), some [("MapID", "X")]⟩])] =
      Except.ok ([], [Diag.noFlowDataForMapID "X" "rivers.shp",
        Diag.unsupportedGeometryType "X" "Polygon"]) := rfl

/-- C6 amended: for a feature whose resolved identifier has no flow-table
entry, the diagnostic naming the identifier and the source is always
logged; any feature that is produced carries the empty flow mapping; and
when the geometry is of a supported kind (point, polyline, or
multi-polyline with at least one part) the FlowFeature is indeed produced,
with `flows = []` — only geometry-level failures can still skip it. -/
theorem unmatched_identifier_empty_flows
    (path : String) (tov : Option FeatureType) (m : List (String × YearFlows))
    (props : Option AttrBag) (g : Option Geometry) (mid : String)
    (hres : (probeKeys props mapIdPropertyKeys).map jsTrim = some mid)
    (hne : mid ≠ "") (hnf : getKey m mid = none) :
    Diag.noFlowDataForMapID mid path ∈ (processFeature path tov m ⟨g, props⟩).2 ∧
    (∀ ff ds, processFeature path tov m ⟨g, props⟩ = (some ff, ds) →
      ff.properties.flows = []) ∧
    (∀ c, ∃ ff ds,
      processFeature path tov m ⟨some (Geometry.point c), props⟩ = (some ff, ds) ∧
      ff.properties.flows = []) ∧
    (∀ c, ∃ ff ds,
      processFeature path tov m ⟨some (Geometry.lineString c), props⟩ =
        (some ff, ds) ∧ ff.properties.flows = []) ∧
    (∀ p ps, ∃ ff ds,
      processFeature path tov m ⟨some (Geometry.multiLineString (p :: ps)), props⟩ =
        (some ff, ds) ∧ ff.properties.flows = []) := by
  have hres' : ∀ g' : Option Geometry, resolveMapId ⟨g', props⟩ = some mid := by
    intro g'
    rw [resolveMapId_mk]
    exact hres
  refine ⟨?_, ?_, ?_, ?_, ?_⟩
  · unfold processFeature
    rw [hres' g]
    rcases g with _ | g
    · simp [hne, hnf]
    · rcases g with c | c | parts | t
      · simp [hne, hnf]
      · simp [hne, hnf]
      · rcases parts with _ | ⟨p, ps⟩ <;> simp [hne, hnf]
      · simp [hne, hnf]
  · intro ff ds h
    obtain ⟨mid', hm', _, _, hfl⟩ :=
      processFeature_some path tov m ⟨g, props⟩ ff ds h
    have hmm : mid = mid' := Option.some.inj ((hres' g).symm.trans hm')
    subst hmm
    rw [hfl, hnf]
    rfl
  · intro c
    unfold processFeature
    rw [hres' (some (Geometry.point c))]
    simp [hne, hnf]
  · intro c
    unfold processFeature
    rw [hres' (some (Geometry.lineString c))]
    simp [hne, hnf]
  · intro p ps
    unfold processFeature
    rw [hres' (some (Geometry.multiLineString (p :: ps)))]
    simp [hne, hnf]

/-- Witness for the amended C6 theorem at a concrete input: the diagnostic
for an unmatched identifier is logged even for an unsupported geometry. -/
theorem unmatched_identifier_witness :
    Diag.noFlowDataForMapID "X" "rivers.shp" ∈
      (processFeature "rivers.shp" none []
        ⟨some (Geometry.other "Polygon"), some [("MapID", "X")]⟩).2 :=
  (unmatched_identifier_empty_flows "rivers.shp" none [] (some [("MapID", "X")])
    (some (Geometry.other "Polygon")) "X" (by decide) (by decide) (by decide)).1

/-- C9: the background shim starts exactly one reconciliation run per
process (the worker request is posted by the module top-level code, and no
later event — in particular no consumer request, however many or however
interleaved — ever starts another), and once any requester observes a
resolved result, every later requester observes the same result: the
single worker message is cached indefinitely and never retried. -/
theorem useFlowData_single_flight
    (evs more : List ShimEvent) (r : Except String (List FlowFeature))
    (h : resolveResult (shimRun true evs) = some r) :
    (shimRun true evs).runsStarted = 1 ∧
    (shimRun true (evs ++ more)).runsStarted = 1 ∧
    resolveResult (shimRun true (evs ++ more)) = some r := by
  have h1 : ∀ l : List ShimEvent, (shimRun true l).runsStarted = 1 := by
    intro l
    rw [shimRun, foldl_shimStep_runsStarted]
    rfl
  refine ⟨h1 evs, h1 _, ?_⟩
  rw [shimRun, List.foldl_append]
  exact resolve_stable more (evs.foldl shimStep (shimInit true)) r
    (shimRun_inv evs) h

/-- Witness for C9 at a concrete trace: after the worker's single success
message, a later request still resolves to the same cached result and only
one run was ever started. -/
theorem useFlowData_single_flight_witness :
    (shimRun true [ShimEvent.workerMessage (Except.ok [])]).runsStarted = 1 ∧
    (shimRun true ([ShimEvent.workerMessage (Except.ok [])] ++
      [ShimEvent.queryRequest])).runsStarted = 1 ∧
    resolveResult (shimRun true ([ShimEvent.workerMessage (Except.ok [])] ++
      [ShimEvent.queryRequest])) = some (Except.ok []) :=
  useFlowData_single_flight [ShimEvent.workerMessage (Except.ok [])]
    [ShimEvent.queryRequest] (Except.ok []) rfl
